import Mathlib

set_option maxHeartbeats 1000000

namespace Zfit

/-! Shallow embedding of the zfit loss-construction / gradient-evaluation
subsystem and of the PDF base class `zfit/core/basepdf.py`.

The loss subsystem itself (`zfit/core/loss.py`: `UnbinnedNLL`, `SimpleLoss`,
loss addition, `gradients`, chunked evaluation) is not part of the sources;
only its test suite `tests/test_loss.py` is.  Those parts are therefore
modelled from the specification (definitions marked `Modelled from the
spec:`), pinned to the behaviour the repository's own tests assert where the
two disagree.  The PDF base class is embedded directly from
`src/zfit/core/basepdf.py`. -/

/-- Modelled from the spec: a fit Parameter (`zfit.Parameter`; the parameter
registry code is not under src/).  Identity is by object reference, modelled
by the `pid` field; `value` is the current scalar value (modelled as a
rational), `floating` the free-vs-fixed flag. -/
structure Parameter where
  pid : Nat
  name : String
  value : ℚ
  floating : Bool
deriving DecidableEq, Repr

/-- Modelled from the spec: a Region / fit range (`zfit.Space`;
`zfit/core/limits.py` is not under src/), one-dimensional as exercised by the
repository's tests: one observable name, one (lower, upper) interval, and an
optional axes tuple which is `none` until the Region is normalized. -/
structure Region where
  obs : String
  lower : ℚ
  upper : ℚ
  axes : Option (List Nat)
deriving DecidableEq, Repr

/-- Modelled from the spec: normalization of a fit range to a canonical
Region, resolving the observables to the canonical axis ordering (the test
`test_add` sets the axes of every fit range of a composite loss to `(0,)`). -/
def Region.normalize (r : Region) : Region :=
  { r with axes := some [0] }

/-- Region membership test (events outside the fit range are excluded). -/
def Region.containsEv (r : Region) (x : ℚ) : Bool :=
  decide (r.lower ≤ x) && decide (x ≤ r.upper)

/-- Modelled from the spec: a Dataset (`zfit.Data`; not under src/): an
identity, a one-dimensional list of event values and an optional per-event
weight vector (uniform weight 1 when absent). -/
structure DataSet where
  did : Nat
  events : List ℚ
  weights : Option (List ℚ)
deriving DecidableEq, Repr

/-- Effective per-event weights: the given vector, or uniform weight 1. -/
def DataSet.effWeights (d : DataSet) : List ℚ :=
  d.weights.getD (d.events.map fun _ => (1 : ℚ))

/-- Modelled from the spec: a probability Model (PDF) as seen by the loss
subsystem: an identity token plus the parameters discovered by interrogating
the model's computation graph.  The numeric behaviour of the model (out of
scope for the loss core) lives in `PDFEnv`. -/
structure Model where
  mid : Nat
  params : List Parameter
deriving DecidableEq, Repr

/-- Modelled from the spec: the numeric backend of the models, an external
collaborator of the loss core.  `logprob m x` is the log of the normalized
probability of model `m` at event value `x` (at the current parameter
values); `dlogprob m pid x` is its partial derivative with respect to the
parameter with identity `pid`. -/
structure PDFEnv where
  logprob : Nat → ℚ → ℚ
  dlogprob : Nat → Nat → ℚ → ℚ

/-- Modelled from the spec: a Constraint (`zfit.constraint`; not under src/):
an identity, the scalar penalty returned by its standalone `value()` at the
current parameter values, the parameters it declares as dependents, and the
partial derivative of the penalty per parameter identity. -/
structure Constraint where
  cid : Nat
  cvalue : ℚ
  deps : List Parameter
  cgrad : Nat → ℚ

/-- Modelled from the spec: a loss.  A likelihood-based loss (`UnbinnedNLL`
and the composites produced by `+`) stores parallel ordered sequences of
models, datasets and fit ranges plus a constraint list; a Simple Loss wraps
an arbitrary scalar callable (invoked with no arguments), its gradient
callable (per parameter identity, supplied by the autodiff backend, which is
out of scope) and an explicit declared dependent list. -/
inductive Loss where
  | nll (model : List Model) (data : List DataSet) (fit_range : List Region)
      (constraints : List Constraint)
  | simple (func : Unit → ℚ) (dfunc : Nat → ℚ) (dependents : List Parameter)

/-- Modelled from the spec: the error taxonomy of the loss subsystem. -/
inductive LossError where
  | ambiguousComposition
  | unresolvableDependent
  | malformedConstruction
deriving DecidableEq, Repr

/-- Model sequence of a loss (term-addition order). -/
def Loss.model : Loss → List Model
  | .nll ms _ _ _ => ms
  | .simple _ _ _ => []

/-- Data sequence of a loss (term-addition order). -/
def Loss.data : Loss → List DataSet
  | .nll _ ds _ _ => ds
  | .simple _ _ _ => []

/-- Fit-range sequence of a loss (term-addition order). -/
def Loss.fit_range : Loss → List Region
  | .nll _ _ rs _ => rs
  | .simple _ _ _ => []

/-- Constraint sequence of a loss. -/
def Loss.constraints : Loss → List Constraint
  | .nll _ _ _ cs => cs
  | .simple _ _ _ => []

/-- Modelled from the spec: the `UnbinnedNLL` constructor (not under src/).
Parallel model/data/fit-range sequences of mismatched length are a
construction-time error; the fit ranges are normalized to canonical Regions
at construction. -/
def UnbinnedNLL (model : List Model) (data : List DataSet) (fit_range : List Region)
    (constraints : List Constraint) : Except LossError Loss :=
  if model.length = data.length ∧ data.length = fit_range.length then
    .ok (.nll model data (fit_range.map Region.normalize) constraints)
  else
    .error .malformedConstruction

/-- Modelled from the spec: the `SimpleLoss` constructor (not under src/):
wraps a scalar callable, its gradient callable and the declared dependents. -/
def SimpleLoss (func : Unit → ℚ) (dfunc : Nat → ℚ) (dependents : List Parameter) : Loss :=
  .simple func dfunc dependents

/-- Modelled from the spec and pinned to the repository's tests: loss
addition (`+`).  Two likelihood-based losses concatenate their model, data,
fit-range and constraint sequences (order-preserving, no deduplication;
`test_add`).  Every addition involving a Simple Loss raises the ambiguous
composition error: `test_simple_loss` asserts that even adding two Simple
Losses raises `IntentionNotUnambiguousError`. -/
def Loss.add : Loss → Loss → Except LossError Loss
  | .nll m1 d1 r1 c1, .nll m2 d2 r2 c2 => .ok (.nll (m1 ++ m2) (d1 ++ d2) (r1 ++ r2) (c1 ++ c2))
  | _, _ => .error .ambiguousComposition

/-- Events of a dataset paired with their effective weights, restricted to
the events whose value falls inside the fit range. -/
def filteredEvents (d : DataSet) (r : Region) : List (ℚ × ℚ) :=
  (d.events.zip d.effWeights).filter fun ew => r.containsEv ew.1

/-- Modelled from the spec: the negative weighted log-likelihood sum of one
(model, data, range) entry: per-event log of the normalized probability,
weighted, summed over the in-range events, negated. -/
def termNLL (env : PDFEnv) (m : Model) (d : DataSet) (r : Region) : ℚ :=
  -(((filteredEvents d r).map fun ew => ew.2 * env.logprob m.mid ew.1).sum)

/-- Modelled from the spec: `value()` of a loss.  A likelihood-based loss
sums the per-term negative log-likelihoods and adds the constraint
penalties; a Simple Loss invokes the wrapped callable with no arguments. -/
def Loss.value (env : PDFEnv) : Loss → ℚ
  | .nll ms ds rs cs =>
      ((ms.zip (ds.zip rs)).map fun mdr => termNLL env mdr.1 mdr.2.1 mdr.2.2).sum
        + (cs.map Constraint.cvalue).sum
  | .simple f _ _ => f ()

/-- Dependents before the floating filter: for a likelihood-based loss the
deduplicated union of the parameters discovered on every model and
constraint; for a Simple Loss exactly the declared list. -/
def Loss.rawDependents : Loss → List Parameter
  | .nll ms _ _ cs => ((ms.map Model.params).flatten ++ (cs.map Constraint.deps).flatten).dedup
  | .simple _ _ dep => dep

/-- Modelled from the spec: `get_dependents(only_floating)`: the dependent
parameters, with fixed parameters excluded when `only_floating` is true. -/
def Loss.get_dependents (L : Loss) (only_floating : Bool) : List Parameter :=
  if only_floating then L.rawDependents.filter (fun p => p.floating) else L.rawDependents

/-- Modelled from the spec: partial derivative of one (model, data, range)
entry of the negative log-likelihood with respect to the parameter with
identity `pid`. -/
def termGrad (env : PDFEnv) (m : Model) (d : DataSet) (r : Region) (pid : Nat) : ℚ :=
  -(((filteredEvents d r).map fun ew => ew.2 * env.dlogprob m.mid pid ew.1).sum)

/-- Modelled from the spec: the scalar partial derivative of a loss with
respect to one parameter, at the current parameter values. -/
def Loss.gradOne (env : PDFEnv) (L : Loss) (p : Parameter) : ℚ :=
  match L with
  | .nll ms ds rs cs =>
      ((ms.zip (ds.zip rs)).map fun mdr => termGrad env mdr.1 mdr.2.1 mdr.2.2 p.pid).sum
        + (cs.map fun c => c.cgrad p.pid).sum
  | .simple _ df _ => df p.pid

/-- Modelled from the spec: the `params` argument of `gradients`: omitted,
a single parameter, or an explicit ordered list. -/
inductive ParamsArg where
  | omitted
  | single (p : Parameter)
  | explicitList (ps : List Parameter)

/-- Modelled from the spec: `gradients(params)`.  With `params` omitted,
one gradient per currently-floating dependent (no guaranteed order); with a
single parameter, a one-element result; with an explicit ordered list, one
scalar partial derivative per requested parameter in exactly that order.
Requesting a parameter that is not among the loss's dependents raises the
unresolvable-dependent error synchronously. -/
def Loss.gradients (env : PDFEnv) (L : Loss) : ParamsArg → Except LossError (List ℚ)
  | .omitted => .ok ((L.get_dependents true).map (L.gradOne env))
  | .single p =>
      if p ∈ L.get_dependents false then .ok [L.gradOne env p]
      else .error .unresolvableDependent
  | .explicitList ps =>
      if ∀ p ∈ ps, p ∈ L.get_dependents false then .ok (ps.map (L.gradOne env))
      else .error .unresolvableDependent

/-- Modelled from the spec: the ambient chunking configuration
(`zfit.run.chunking`, not under src/): whether chunked evaluation is active
and the maximal number of events per chunk. -/
structure ChunkConfig where
  active : Bool
  max_n_points : Nat
deriving DecidableEq, Repr

/-- Split a list into sequential chunks of at most `n` elements (at least one
element per chunk, so a chunk size of zero degenerates to singletons). -/
def chunkList (n : Nat) : List α → List (List α)
  | [] => []
  | x :: xs => (x :: xs.take (n - 1)) :: chunkList n (xs.drop (n - 1))
termination_by l => l.length
decreasing_by
  simp only [List.length_drop, List.length_cons]
  omega

/-- Modelled from the spec: the chunked negative weighted log-likelihood of
one (model, data, range) entry: the in-range events are processed in
sequential chunks of at most `n` events, the per-chunk partial sums are
combined by plain addition, and the total is negated. -/
def termNLLChunked (env : PDFEnv) (n : Nat) (m : Model) (d : DataSet) (r : Region) : ℚ :=
  -(((chunkList n (filteredEvents d r)).map
      fun c => (c.map fun ew => ew.2 * env.logprob m.mid ew.1).sum).sum)

/-- Modelled from the spec: chunked partial derivative of one (model, data,
range) entry, with per-chunk partial sums combined by plain addition. -/
def termGradChunked (env : PDFEnv) (n : Nat) (m : Model) (d : DataSet) (r : Region)
    (pid : Nat) : ℚ :=
  -(((chunkList n (filteredEvents d r)).map
      fun c => (c.map fun ew => ew.2 * env.dlogprob m.mid pid ew.1).sum).sum)

/-- Modelled from the spec: `value()` under the ambient chunking
configuration: when chunking is active every per-term sum is evaluated in
sequential chunks of at most `max_n_points` events. -/
def Loss.valueChunked (env : PDFEnv) (cfg : ChunkConfig) (L : Loss) : ℚ :=
  if cfg.active then
    match L with
    | .nll ms ds rs cs =>
        ((ms.zip (ds.zip rs)).map
            fun mdr => termNLLChunked env cfg.max_n_points mdr.1 mdr.2.1 mdr.2.2).sum
          + (cs.map Constraint.cvalue).sum
    | .simple f _ _ => f ()
  else L.value env

/-- Modelled from the spec: the scalar partial derivative of a loss with the
underlying value computation evaluated in chunks. -/
def Loss.gradOneChunked (env : PDFEnv) (n : Nat) (L : Loss) (p : Parameter) : ℚ :=
  match L with
  | .nll ms ds rs cs =>
      ((ms.zip (ds.zip rs)).map
          fun mdr => termGradChunked env n mdr.1 mdr.2.1 mdr.2.2 p.pid).sum
        + (cs.map fun c => c.cgrad p.pid).sum
  | .simple _ df _ => df p.pid

/-- Modelled from the spec: `gradients(params)` under the ambient chunking
configuration. -/
def Loss.gradientsChunked (env : PDFEnv) (cfg : ChunkConfig) (L : Loss) (pa : ParamsArg) :
    Except LossError (List ℚ) :=
  if cfg.active then
    match pa with
    | .omitted => .ok ((L.get_dependents true).map (L.gradOneChunked env cfg.max_n_points))
    | .single p =>
        if p ∈ L.get_dependents false then .ok [L.gradOneChunked env cfg.max_n_points p]
        else .error .unresolvableDependent
    | .explicitList ps =>
        if ∀ p ∈ ps, p ∈ L.get_dependents false then
          .ok (ps.map (L.gradOneChunked env cfg.max_n_points))
        else .error .unresolvableDependent
  else L.gradients env pa

/-! Embedding of `src/zfit/core/basepdf.py`.

The overridable pieces (`_func`, `_analytic_integrate`, the registered
partial analytic integral, the external numeric integrators and the
`tf.exp(self._log_prob(...))` fallback of `_call_prob`) are structure
fields; the dispatch methods of `BasePDF` are embedded one-to-one.  Python
exceptions are modelled by `Except`; since the methods are mutually
recursive and need not terminate (see `_call_func`), every method takes a
fuel argument and exhausted fuel models Python's recursion limit
(`recursionError`).  Tensor values are modelled as rationals and limits as
an optional interval (Python `None` is `none`). -/

/-- Python exceptions relevant to `basepdf.py`: `NotImplementedError`,
`AttributeError` (the undefined `NAME_NEEDED_YIELD` lookup) and
`RecursionError` (Python's recursion limit). -/
inductive PyErr where
  | notImplemented
  | attributeError
  | recursionError
deriving DecidableEq, Repr

/-- Integration limits: an interval, or Python `None`. -/
abbrev Limits := Option (ℚ × ℚ)

/-- The state of a `BasePDF` instance: the methods a subclass may override
and the external collaborators, as fields.  `_func` is the subclass's
unnormalized function (`.error .notImplemented` when not overridden, as in
`BasePDF._func`); `_analytic_integrate` likewise; `max_dims` is
`_analytic_integral.max_dims`; `partAnalyticIntegral` is
`_analytic_integral.integrate` (external registry);
`numeric_integrate` is `self._integration.numeric_integrate` and
`auto_integrate` is `zfit.core.integrate.auto_integrate` (both external);
`log_prob_fallback` is `tf.exp(self._log_prob(value, norm_range))`
(external `tf.distributions` machinery). -/
structure BasePDF where
  _func : ℚ → Except PyErr ℚ
  norm_range : Limits
  _analytic_integrate : Limits → Except PyErr ℚ
  max_dims : List Nat
  partAnalyticIntegral : ℚ → Limits → List Nat → ℚ
  numeric_integrate : (ℚ → ℚ) → Limits → ℚ
  auto_integrate : (ℚ → Except PyErr ℚ) → Limits → Except PyErr ℚ
  log_prob_fallback : ℚ → Limits → Except PyErr ℚ

/-- The bundle of the mutually recursive `BasePDF` methods at one recursion
depth: each field is one method of `basepdf.py`. -/
structure PDFMethods where
  func : ℚ → Except PyErr ℚ
  _call_func : ℚ → Except PyErr ℚ
  prob : ℚ → Limits → Except PyErr ℚ
  _call_prob : ℚ → Limits → Except PyErr ℚ
  _prob : ℚ → Limits → Except PyErr ℚ
  normalization : Limits → Except PyErr ℚ
  _call_normalization : Limits → Except PyErr ℚ
  _normalization : Limits → Except PyErr ℚ
  integrate : Limits → Except PyErr ℚ
  _call_integrate : Limits → Except PyErr ℚ
  _integrate : Limits → Except PyErr ℚ

/-- Exhausted recursion depth: every method raises `RecursionError`. -/
def noFuel : PDFMethods where
  func := fun _ => .error .recursionError
  _call_func := fun _ => .error .recursionError
  prob := fun _ _ => .error .recursionError
  _call_prob := fun _ _ => .error .recursionError
  _prob := fun _ _ => .error .recursionError
  normalization := fun _ => .error .recursionError
  _call_normalization := fun _ => .error .recursionError
  _normalization := fun _ => .error .recursionError
  integrate := fun _ => .error .recursionError
  _call_integrate := fun _ => .error .recursionError
  _integrate := fun _ => .error .recursionError

/-- One layer of the method bodies of `basepdf.py`, with every nested method
call taken from the bundle `m` one recursion depth below:

- `func(value)` embeds `return self._call_func(value, name)`;
- `_call_func` tries `self._func(value)` and on `NotImplementedError`
  evaluates `self.prob(value) * self.NAME_NEEDED_YIELD`, where
  `self.prob(value)` is evaluated first (Python left-to-right order) and the
  attribute lookup `self.NAME_NEEDED_YIELD` (defined nowhere on the class)
  raises `AttributeError`;
- `prob(value, norm_range=None)` embeds
  `norm_range = norm_range or self.norm_range; self._call_prob(...)`;
- `_call_prob` tries `self._prob` and on `NotImplementedError` returns
  `tf.exp(self._log_prob(value, norm_range))` (the external fallback field);
- `_prob` embeds `self.func(value) / self.normalization(norm_range)`
  (division modelled on ℚ);
- `normalization` / `_call_normalization` / `_normalization` chain down to
  `self.integrate(limits=norm_range)`;
- `integrate` embeds `self._call_integrate(limits=limits)`;
- `_call_integrate` tries `self.analytic_integrate(limits)` (which is just
  `self._analytic_integrate(limits)`); on `NotImplementedError`, when
  `self._analytic_integral.max_dims` is non-empty it numerically integrates
  the registered partial analytic integral, else falls back to
  `self._integrate(limits)`;
- `_integrate` is the full numeric Monte-Carlo integration
  `auto_integrate(func=self.func, limits=limits, ...)`. -/
def methodsStep (p : BasePDF) (m : PDFMethods) : PDFMethods where
  func := fun v => m._call_func v
  _call_func := fun v =>
    match p._func v with
    | .ok r => .ok r
    | .error .notImplemented =>
        match m.prob v none with
        | .ok _ => .error .attributeError
        | .error e => .error e
    | .error e => .error e
  prob := fun v nr => m._call_prob v (match nr with | none => p.norm_range | some l => some l)
  _call_prob := fun v nr =>
    match m._prob v nr with
    | .ok r => .ok r
    | .error .notImplemented => p.log_prob_fallback v nr
    | .error e => .error e
  _prob := fun v nr =>
    match m.func v with
    | .error e => .error e
    | .ok fv =>
      match m.normalization nr with
      | .error e => .error e
      | .ok nv => .ok (fv / nv)
  normalization := fun nr => m._call_normalization nr
  _call_normalization := fun nr => m._normalization nr
  _normalization := fun nr => m.integrate nr
  integrate := fun limits => m._call_integrate limits
  _call_integrate := fun limits =>
    match p._analytic_integrate limits with
    | .ok i => .ok i
    | .error .notImplemented =>
        if p.max_dims ≠ [] then
          .ok (p.numeric_integrate (fun v => p.partAnalyticIntegral v limits p.max_dims) limits)
        else m._integrate limits
    | .error e => .error e
  _integrate := fun limits => p.auto_integrate m.func limits

/-- The methods of a `BasePDF` instance at a given recursion depth. -/
def methodsAt (p : BasePDF) : Nat → PDFMethods
  | 0 => noFuel
  | fuel + 1 => methodsStep p (methodsAt p fuel)

/-- `BasePDF.func(value)` at a given recursion depth. -/
def BasePDF.func (p : BasePDF) (fuel : Nat) (v : ℚ) : Except PyErr ℚ :=
  (methodsAt p fuel).func v

/-- `BasePDF._call_func(value, name)` at a given recursion depth. -/
def BasePDF._call_func (p : BasePDF) (fuel : Nat) (v : ℚ) : Except PyErr ℚ :=
  (methodsAt p fuel)._call_func v

/-- `BasePDF.prob(value, norm_range)` at a given recursion depth. -/
def BasePDF.prob (p : BasePDF) (fuel : Nat) (v : ℚ) (nr : Limits) : Except PyErr ℚ :=
  (methodsAt p fuel).prob v nr

/-- `BasePDF._call_prob(value, norm_range, name)` at a given recursion depth. -/
def BasePDF._call_prob (p : BasePDF) (fuel : Nat) (v : ℚ) (nr : Limits) : Except PyErr ℚ :=
  (methodsAt p fuel)._call_prob v nr

/-- `BasePDF._prob(value, norm_range)` at a given recursion depth. -/
def BasePDF._prob (p : BasePDF) (fuel : Nat) (v : ℚ) (nr : Limits) : Except PyErr ℚ :=
  (methodsAt p fuel)._prob v nr

/-- `BasePDF.normalization(norm_range)` at a given recursion depth. -/
def BasePDF.normalization (p : BasePDF) (fuel : Nat) (nr : Limits) : Except PyErr ℚ :=
  (methodsAt p fuel).normalization nr

/-- `BasePDF.integrate(limits, name)` at a given recursion depth. -/
def BasePDF.integrate (p : BasePDF) (fuel : Nat) (limits : Limits) : Except PyErr ℚ :=
  (methodsAt p fuel).integrate limits

/-- `BasePDF._call_integrate(limits)` at a given recursion depth. -/
def BasePDF._call_integrate (p : BasePDF) (fuel : Nat) (limits : Limits) : Except PyErr ℚ :=
  (methodsAt p fuel)._call_integrate limits

/-- `BasePDF._integrate(limits)` (full numeric Monte-Carlo integration of
the unnormalized function) at a given recursion depth. -/
def BasePDF._integrate (p : BasePDF) (fuel : Nat) (limits : Limits) : Except PyErr ℚ :=
  (methodsAt p fuel)._integrate limits

/-! Concrete objects used by the witnesses. -/

/-- Concrete floating parameter used by witnesses. -/
def pW1 : Parameter := ⟨1, "param1", 1, true⟩

/-- Concrete floating parameter used by witnesses. -/
def pW2 : Parameter := ⟨2, "param2", 2, true⟩

/-- Concrete fit range used by witnesses. -/
def regW : Region := ⟨"obs1", 1, 4, none⟩

/-- Concrete model token used by witnesses. -/
def modelW (i : Nat) (ps : List Parameter) : Model := ⟨i, ps⟩

/-- Concrete dataset used by witnesses. -/
def dataW (i : Nat) : DataSet := ⟨i, [2, 3], none⟩

/-- Concrete numeric backend used by witnesses. -/
def envW : PDFEnv := ⟨fun m x => (m : ℚ) * x, fun m pid x => (m : ℚ) + (pid : ℚ) + x⟩

/-- Concrete constraint used by witnesses. -/
def conW1 : Constraint := ⟨1, 5, [pW1], fun _ => 0⟩

/-- Concrete constraint used by witnesses. -/
def conW2 : Constraint := ⟨2, 7, [pW2], fun _ => 0⟩

/-- Concrete likelihood loss with two terms, used by witnesses. -/
def lossW : Loss :=
  .nll [modelW 1 [pW1], modelW 2 [pW2]] [dataW 1, dataW 2]
    [regW.normalize, regW.normalize] []

/-! Claim theorems. -/

/-- C1 (counterexample): composing a Simple Loss with another Simple Loss
via `+` is claimed to be permitted, but the repository's test
`test_simple_loss` asserts that it raises `IntentionNotUnambiguousError`
(the ambiguous composition error), and the model pinned to that test indeed
rejects it at a concrete input. -/
theorem c1_counterexample :
    (SimpleLoss (fun _ => 3) (fun _ => 0) [pW1]).add (SimpleLoss (fun _ => 4) (fun _ => 0) [pW2])
      = .error .ambiguousComposition := rfl

/-- C1 (amended): composing a Simple Loss with a likelihood-based loss via
`+` raises the Ambiguous Composition error in either order, and composing a
Simple Loss with another Simple Loss raises it as well; only likelihood-based
losses compose via `+`, concatenating their term structure. -/
theorem c1_ambiguous_composition (f g : Unit → ℚ) (df dg : Nat → ℚ)
    (dep dep2 : List Parameter) (ms : List Model) (ds : List DataSet) (rs : List Region)
    (cs : List Constraint) :
    (SimpleLoss f df dep).add (.nll ms ds rs cs) = .error .ambiguousComposition ∧
    (Loss.nll ms ds rs cs).add (SimpleLoss f df dep) = .error .ambiguousComposition ∧
    (SimpleLoss f df dep).add (SimpleLoss g dg dep2) = .error .ambiguousComposition ∧
    (Loss.nll ms ds rs cs).add (.nll ms ds rs cs)
      = .ok (.nll (ms ++ ms) (ds ++ ds) (rs ++ rs) (cs ++ cs)) :=
  ⟨rfl, rfl, rfl, rfl⟩

/-- C7: a Simple Loss's `value()` is exactly the result of invoking the
wrapped callable with no arguments, and `get_dependents()` is exactly the
declared parameter list (here all declared parameters are floating, as in
the test), independently of the wrapped callable. -/
theorem c7_simple_loss (env : PDFEnv) (f : Unit → ℚ) (df : Nat → ℚ) (dep : List Parameter)
    (h : ∀ p ∈ dep, p.floating = true) :
    (SimpleLoss f df dep).value env = f () ∧
    (SimpleLoss f df dep).get_dependents false = dep ∧
    (SimpleLoss f df dep).get_dependents true = dep ∧
    (∀ g dg, (SimpleLoss g dg dep).get_dependents true
      = (SimpleLoss f df dep).get_dependents true) := by
  refine ⟨rfl, rfl, ?_, fun g dg => rfl⟩
  simp only [SimpleLoss, Loss.get_dependents, Loss.rawDependents, if_true]
  exact List.filter_eq_self.mpr h

/-- C7 (witness): concrete Simple Loss evaluating the claim. -/
theorem c7_witness :
    (SimpleLoss (fun _ => (5 : ℚ)) (fun _ => 0) [pW1, pW2]).value envW = 5 ∧
    (SimpleLoss (fun _ => (5 : ℚ)) (fun _ => 0) [pW1, pW2]).get_dependents true = [pW1, pW2] :=
  ⟨(c7_simple_loss envW (fun _ => 5) (fun _ => 0) [pW1, pW2] (by decide)).1,
   (c7_simple_loss envW (fun _ => 5) (fun _ => 0) [pW1, pW2] (by decide)).2.2.1⟩

/-- C6: requesting the gradient with respect to a parameter that is not
among the loss's dependents raises the unresolvable-dependent error
synchronously (both as a single parameter and inside any explicit list); it
never returns a result for that parameter. -/
theorem c6_unresolvable_dependent (env : PDFEnv) (L : Loss) (p : Parameter)
    (h : p ∉ L.get_dependents false) :
    L.gradients env (.single p) = .error .unresolvableDependent ∧
    (∀ ps, p ∈ ps → L.gradients env (.explicitList ps) = .error .unresolvableDependent) ∧
    (∀ gs, L.gradients env (.single p) ≠ .ok gs) := by
  have h1 : L.gradients env (.single p) = .error .unresolvableDependent := by
    simp [Loss.gradients, h]
  refine ⟨h1, ?_, fun gs hgs => by rw [h1] at hgs; cases hgs⟩
  intro ps hp
  have hall : ¬ ∀ q ∈ ps, q ∈ L.get_dependents false := fun hall => h (hall p hp)
  simp [Loss.gradients, hall]

/-- C6 (witness): a Simple Loss with no declared dependents rejects a
gradient request for a concrete parameter. -/
theorem c6_witness :
    (SimpleLoss (fun _ => 0) (fun _ => 0) []).gradients envW (.single pW1)
      = .error .unresolvableDependent :=
  (c6_unresolvable_dependent envW (SimpleLoss (fun _ => 0) (fun _ => 0) []) pW1
    (by simp [SimpleLoss, Loss.get_dependents, Loss.rawDependents])).1

/-- C3: with an explicit ordered parameter list, `gradients` returns one
scalar partial derivative per requested parameter in exactly the requested
order, so the reversed request returns the reversed result; a single
parameter yields a one-element result; with `params` omitted it returns one
gradient per currently-floating dependent, compared as an unordered
collection (a permutation of the floating dependents' gradients). -/
theorem c3_gradient_order (env : PDFEnv) (L : Loss) (ps : List Parameter)
    (h : ∀ p ∈ ps, p ∈ L.get_dependents false) :
    L.gradients env (.explicitList ps) = .ok (ps.map (L.gradOne env)) ∧
    (ps.map (L.gradOne env)).length = ps.length ∧
    L.gradients env (.explicitList ps.reverse) = .ok ((ps.map (L.gradOne env)).reverse) ∧
    (∀ p ∈ L.get_dependents false, L.gradients env (.single p) = .ok [L.gradOne env p]) ∧
    (∃ gs, L.gradients env .omitted = .ok gs ∧
      gs.Perm ((L.get_dependents true).map (L.gradOne env))) := by
  refine ⟨?_, List.length_map _ _, ?_, ?_, ⟨_, rfl, List.Perm.refl _⟩⟩
  · simp [Loss.gradients]
    exact h
  · have h' : ∀ p ∈ ps.reverse, p ∈ L.get_dependents false := by
      intro p hp
      exact h p (List.mem_reverse.mp hp)
    simp [Loss.gradients, h', List.map_reverse]
    exact h
  · intro p hp
    simp [Loss.gradients, hp]

/-- C3 (witness): concrete two-parameter likelihood loss; the reversed
request and the single-parameter request evaluate as claimed. -/
theorem c3_witness :
    lossW.gradients envW (.explicitList [pW2, pW1])
      = .ok ([pW2, pW1].map (lossW.gradOne envW)) ∧
    lossW.gradients envW (.explicitList [pW1, pW2])
      = .ok (([pW2, pW1].map (lossW.gradOne envW)).reverse) :=
  ⟨(c3_gradient_order envW lossW [pW2, pW1] (by decide)).1,
   (c3_gradient_order envW lossW [pW2, pW1] (by decide)).2.2.1⟩

/-- C2: for a composite loss built by `+` from likelihood terms, `model` and
`data` are the concatenations, in term-addition order, of the constituents'
sequences; `fit_range` is the concatenated range sequence with every entry
normalized to a canonical Region; and nesting flattens, so `(A+B)+C` and
`A+(B+C)` are the same composite. -/
theorem c2_composite_structure
    (m1 m2 m3 : List Model) (d1 d2 d3 : List DataSet) (r1 r2 r3 : List Region)
    (c1 c2 c3 : List Constraint) (L1 L2 L3 AB ABC BC ABC' : Loss)
    (h1 : UnbinnedNLL m1 d1 r1 c1 = .ok L1)
    (h2 : UnbinnedNLL m2 d2 r2 c2 = .ok L2)
    (h3 : UnbinnedNLL m3 d3 r3 c3 = .ok L3)
    (hAB : L1.add L2 = .ok AB) (hABC : AB.add L3 = .ok ABC)
    (hBC : L2.add L3 = .ok BC) (hABC' : L1.add BC = .ok ABC') :
    ABC.model = m1 ++ m2 ++ m3 ∧
    ABC.data = d1 ++ d2 ++ d3 ∧
    ABC.fit_range = (r1 ++ r2 ++ r3).map Region.normalize ∧
    ABC.constraints = c1 ++ c2 ++ c3 ∧
    ABC = ABC' := by
  simp only [UnbinnedNLL] at h1 h2 h3
  split at h1
  case isFalse => cases h1
  split at h2
  case isFalse => cases h2
  split at h3
  case isFalse => cases h3
  obtain rfl : Loss.nll m1 d1 (r1.map Region.normalize) c1 = L1 := by
    injection h1
  obtain rfl : Loss.nll m2 d2 (r2.map Region.normalize) c2 = L2 := by
    injection h2
  obtain rfl : Loss.nll m3 d3 (r3.map Region.normalize) c3 = L3 := by
    injection h3
  simp only [Loss.add] at hAB
  obtain rfl : Loss.nll (m1 ++ m2) (d1 ++ d2) (r1.map Region.normalize ++ r2.map Region.normalize)
      (c1 ++ c2) = AB := by injection hAB
  simp only [Loss.add] at hABC hBC
  obtain rfl : Loss.nll (m1 ++ m2 ++ m3) (d1 ++ d2 ++ d3)
      (r1.map Region.normalize ++ r2.map Region.normalize ++ r3.map Region.normalize)
      (c1 ++ c2 ++ c3) = ABC := by injection hABC
  obtain rfl : Loss.nll (m2 ++ m3) (d2 ++ d3) (r2.map Region.normalize ++ r3.map Region.normalize)
      (c2 ++ c3) = BC := by injection hBC
  simp only [Loss.add] at hABC'
  obtain rfl : Loss.nll (m1 ++ (m2 ++ m3)) (d1 ++ (d2 ++ d3))
      (r1.map Region.normalize ++ (r2.map Region.normalize ++ r3.map Region.normalize))
      (c1 ++ (c2 ++ c3)) = ABC' := by injection hABC'
  refine ⟨rfl, rfl, ?_, rfl, ?_⟩
  · simp [Loss.fit_range, List.map_append]
  · simp [List.append_assoc]

/-- C2 (witness): three concrete one-term likelihood losses compose into the
concatenated composite. -/
theorem c2_witness :
    (Loss.nll ([modelW 1 []] ++ [modelW 2 []] ++ [modelW 3 []])
        ([dataW 1] ++ [dataW 2] ++ [dataW 3])
        ([regW.normalize] ++ [regW.normalize] ++ [regW.normalize]) []).model
      = [modelW 1 []] ++ [modelW 2 []] ++ [modelW 3 []] :=
  (c2_composite_structure [modelW 1 []] [modelW 2 []] [modelW 3 []]
    [dataW 1] [dataW 2] [dataW 3] [regW] [regW] [regW] [] [] []
    _ _ _ _ _ _ _ rfl rfl rfl rfl rfl rfl rfl).1

/-- C5: merging two likelihood terms concatenates their constraint lists
without deduplication, the composite's value carries the constraint
contribution additively, and the total constraint contribution equals the
sum of each constituent constraint's standalone `value()` for any partition
of the same constraints across the two merged terms. -/
theorem c5_constraint_additivity (env : PDFEnv)
    (m1 m2 : List Model) (d1 d2 : List DataSet) (r1 r2 : List Region)
    (cs1 cs2 cs1' cs2' : List Constraint)
    (hperm : (cs1' ++ cs2').Perm (cs1 ++ cs2)) :
    ∃ L L', (Loss.nll m1 d1 r1 cs1).add (.nll m2 d2 r2 cs2) = .ok L ∧
      (Loss.nll m1 d1 r1 cs1').add (.nll m2 d2 r2 cs2') = .ok L' ∧
      L.constraints = cs1 ++ cs2 ∧
      L.value env = (Loss.nll (m1 ++ m2) (d1 ++ d2) (r1 ++ r2) []).value env
        + ((cs1 ++ cs2).map Constraint.cvalue).sum ∧
      (L'.constraints.map Constraint.cvalue).sum
        = ((cs1 ++ cs2).map Constraint.cvalue).sum := by
  refine ⟨_, _, rfl, rfl, rfl, ?_, ?_⟩
  · simp [Loss.value, Loss.constraints]
  · exact (hperm.map Constraint.cvalue).sum_eq

/-- C5 (witness): two concrete constraints split across the two merged
terms in either way give the same total constraint contribution. -/
theorem c5_witness :
    ∃ L L', (Loss.nll [] [] [] [conW1]).add (.nll [] [] [] [conW2]) = .ok L ∧
      (Loss.nll [] [] [] [conW1, conW2]).add (.nll [] [] [] []) = .ok L' ∧
      L.constraints = [conW1] ++ [conW2] ∧
      L.value envW = (Loss.nll ([] ++ []) ([] ++ []) ([] ++ []) []).value envW
        + (([conW1] ++ [conW2]).map Constraint.cvalue).sum ∧
      (L'.constraints.map Constraint.cvalue).sum
        = (([conW1] ++ [conW2]).map Constraint.cvalue).sum :=
  c5_constraint_additivity envW [] [] [] [] [] [] [conW1] [conW2] [conW1, conW2] []
    (by simp)

/-- Chunking splits a list without losing or reordering elements. -/
theorem chunkList_flatten_of_le (n : Nat) :
    ∀ (k : Nat) (l : List α), l.length ≤ k → (chunkList n l).flatten = l := by
  intro k
  induction k with
  | zero =>
    intro l h
    have hl : l = [] := List.eq_nil_of_length_eq_zero (Nat.le_zero.mp h)
    subst hl
    simp [chunkList]
  | succ k ih =>
    intro l h
    match l with
    | [] => simp [chunkList]
    | x :: xs =>
      rw [chunkList]
      simp only [List.flatten_cons, List.cons_append]
      rw [ih (xs.drop (n - 1)) (by simp only [List.length_drop]; simp at h; omega)]
      rw [List.take_append_drop]

/-- Chunking splits a list without losing or reordering elements. -/
theorem chunkList_flatten (n : Nat) (l : List α) : (chunkList n l).flatten = l :=
  chunkList_flatten_of_le n l.length l le_rfl

/-- The sum of the per-chunk partial sums equals the un-chunked sum. -/
theorem chunkList_sum_sum (n : Nat) (f : α → ℚ) (l : List α) :
    ((chunkList n l).map fun c => (c.map f).sum).sum = (l.map f).sum := by
  have h1 : ((chunkList n l).map fun c => (c.map f).sum)
      = (((chunkList n l).map (List.map f)).map List.sum) := by
    rw [List.map_map]
    rfl
  rw [h1, ← List.sum_flatten, ← List.map_flatten, chunkList_flatten]

/-- Chunked and un-chunked per-term negative log-likelihood agree. -/
theorem termNLLChunked_eq (env : PDFEnv) (n : Nat) (m : Model) (d : DataSet) (r : Region) :
    termNLLChunked env n m d r = termNLL env m d r := by
  unfold termNLLChunked termNLL
  rw [chunkList_sum_sum]

/-- Chunked and un-chunked per-term gradients agree. -/
theorem termGradChunked_eq (env : PDFEnv) (n : Nat) (m : Model) (d : DataSet) (r : Region)
    (pid : Nat) : termGradChunked env n m d r pid = termGrad env m d r pid := by
  unfold termGradChunked termGrad
  rw [chunkList_sum_sum]

/-- Chunked and un-chunked per-parameter loss gradients agree. -/
theorem gradOneChunked_eq (env : PDFEnv) (n : Nat) (L : Loss) (p : Parameter) :
    L.gradOneChunked env n p = L.gradOne env p := by
  match L with
  | .nll ms ds rs cs => simp [Loss.gradOneChunked, Loss.gradOne, termGradChunked_eq]
  | .simple f df dep => rfl

/-- C4: for a fixed dataset and fixed parameter values, `value()` and
`gradients()` computed with chunked evaluation (any active chunk size, data
processed in sequential chunks combined by plain addition) equal the
un-chunked results, for every loss and every gradient request. -/
theorem c4_chunk_invariance (env : PDFEnv) (cfg : ChunkConfig) (L : Loss) (pa : ParamsArg) :
    L.valueChunked env cfg = L.value env ∧
    L.gradientsChunked env cfg pa = L.gradients env pa := by
  constructor
  · unfold Loss.valueChunked
    split
    · match L with
      | .nll ms ds rs cs => simp [Loss.value, termNLLChunked_eq]
      | .simple f df dep => rfl
    · rfl
  · have hg : Loss.gradOneChunked env cfg.max_n_points L = L.gradOne env :=
      funext fun p => gradOneChunked_eq env cfg.max_n_points L p
    unfold Loss.gradientsChunked
    split
    · match pa with
      | .omitted => simp [Loss.gradients, hg]
      | .single p => simp [Loss.gradients, hg]
      | .explicitList ps => simp [Loss.gradients, hg]
    · rfl

/-! Unfolding equations for the `BasePDF` methods, one recursion step each. -/

/-- One step of `func`. -/
theorem func_step (p : BasePDF) (n : Nat) (v : ℚ) :
    BasePDF.func p (n + 1) v = BasePDF._call_func p n v := rfl

/-- One step of `_call_func`. -/
theorem call_func_step (p : BasePDF) (n : Nat) (v : ℚ) :
    BasePDF._call_func p (n + 1) v
      = (match p._func v with
         | .ok r => .ok r
         | .error .notImplemented =>
             match BasePDF.prob p n v none with
             | .ok _ => .error .attributeError
             | .error e => .error e
         | .error e => .error e) := rfl

/-- One step of `prob` with an explicit norm range. -/
theorem prob_step_some (p : BasePDF) (n : Nat) (v : ℚ) (l : ℚ × ℚ) :
    BasePDF.prob p (n + 1) v (some l) = BasePDF._call_prob p n v (some l) := rfl

/-- One step of `prob` with the norm range defaulted. -/
theorem prob_step_none (p : BasePDF) (n : Nat) (v : ℚ) :
    BasePDF.prob p (n + 1) v none = BasePDF._call_prob p n v p.norm_range := rfl

/-- One step of `_call_prob`. -/
theorem call_prob_step (p : BasePDF) (n : Nat) (v : ℚ) (nr : Limits) :
    BasePDF._call_prob p (n + 1) v nr
      = (match BasePDF._prob p n v nr with
         | .ok r => .ok r
         | .error .notImplemented => p.log_prob_fallback v nr
         | .error e => .error e) := rfl

/-- One step of `_prob`. -/
theorem raw_prob_step (p : BasePDF) (n : Nat) (v : ℚ) (nr : Limits) :
    BasePDF._prob p (n + 1) v nr
      = (match BasePDF.func p n v with
         | .error e => .error e
         | .ok fv =>
           match BasePDF.normalization p n nr with
           | .error e => .error e
           | .ok nv => .ok (fv / nv)) := rfl

/-- Three steps of `normalization`, down to `integrate`. -/
theorem normalization_steps (p : BasePDF) (n : Nat) (nr : Limits) :
    BasePDF.normalization p (n + 1 + 1 + 1) nr = BasePDF.integrate p n nr := rfl

/-- One step of `integrate`. -/
theorem integrate_step (p : BasePDF) (n : Nat) (limits : Limits) :
    BasePDF.integrate p (n + 1) limits = BasePDF._call_integrate p n limits := rfl

/-- One step of `_call_integrate`. -/
theorem call_integrate_step (p : BasePDF) (n : Nat) (limits : Limits) :
    BasePDF._call_integrate p (n + 1) limits
      = (match p._analytic_integrate limits with
         | .ok i => .ok i
         | .error .notImplemented =>
             if p.max_dims ≠ [] then
               .ok (p.numeric_integrate
                 (fun v => p.partAnalyticIntegral v limits p.max_dims) limits)
             else BasePDF._integrate p n limits
         | .error e => .error e) := rfl

/-- One step of `_integrate`. -/
theorem raw_integrate_step (p : BasePDF) (n : Nat) (limits : Limits) :
    BasePDF._integrate p (n + 1) limits = p.auto_integrate (BasePDF.func p n) limits := rfl

/-- C8: when the unnormalized function value and the normalization integral
both evaluate, the normalized probability is exactly their quotient:
`_prob` computes `func(value) / normalization(norm_range)` and the public
`prob` (three call layers above) returns the same quotient. -/
theorem c8_prob_normalized (p : BasePDF) (fuel : Nat) (v : ℚ) (l : ℚ × ℚ) (fv nv : ℚ)
    (hf : BasePDF.func p fuel v = .ok fv)
    (hn : BasePDF.normalization p fuel (some l) = .ok nv) :
    BasePDF._prob p (fuel + 1) v (some l) = .ok (fv / nv) ∧
    BasePDF.prob p (fuel + 1 + 1 + 1) v (some l) = .ok (fv / nv) := by
  have hp : BasePDF._prob p (fuel + 1) v (some l) = .ok (fv / nv) := by
    simp only [raw_prob_step, hf, hn]
  refine ⟨hp, ?_⟩
  rw [prob_step_some]
  simp only [call_prob_step, hp]

/-- Concrete pdf whose `_func` and analytic integral are implemented. -/
def pdfOK : BasePDF :=
  ⟨fun x => .ok x, none, fun _ => .ok 4, [], fun _ _ _ => 0, fun _ _ => 0,
   fun _ _ => .ok 1, fun _ _ => .ok 1⟩

/-- C8 (witness): for the concrete pdf, `prob` returns `func / normalization`
at a concrete value and range. -/
theorem c8_witness :
    BasePDF.prob pdfOK 8 3 (some (0, 1)) = .ok ((3 : ℚ) / 4) :=
  (c8_prob_normalized pdfOK 5 3 (0, 1) 3 4 rfl rfl).2

/-- C9: `integrate` first attempts the analytic integral: when it returns a
value, that value is the result; when it signals not-implemented (caught, as
an exception, by the dispatch in `_call_integrate`), the fallback numerically
integrates the registered partial analytic integral when `max_dims` is
non-empty, and otherwise performs the full numeric Monte-Carlo integration
`auto_integrate` of the unnormalized function `func`. -/
theorem c9_integrate_dispatch :
    (∀ (p : BasePDF) (limits : Limits) (fuel : Nat) (v : ℚ),
      p._analytic_integrate limits = .ok v →
      BasePDF.integrate p (fuel + 1 + 1) limits = .ok v) ∧
    (∀ (p : BasePDF) (limits : Limits) (fuel : Nat),
      p._analytic_integrate limits = .error .notImplemented → p.max_dims ≠ [] →
      BasePDF.integrate p (fuel + 1 + 1) limits
        = .ok (p.numeric_integrate
            (fun x => p.partAnalyticIntegral x limits p.max_dims) limits)) ∧
    (∀ (p : BasePDF) (limits : Limits) (fuel : Nat),
      p._analytic_integrate limits = .error .notImplemented → p.max_dims = [] →
      BasePDF.integrate p (fuel + 1 + 1 + 1) limits
        = p.auto_integrate (BasePDF.func p fuel) limits) := by
  refine ⟨?_, ?_, ?_⟩
  · intro p limits fuel v h
    rw [integrate_step]
    simp only [call_integrate_step, h]
  · intro p limits fuel h hmd
    rw [integrate_step]
    simp only [call_integrate_step, h, if_pos hmd]
  · intro p limits fuel h hmd
    rw [integrate_step]
    simp only [call_integrate_step, h, hmd]
    rw [if_neg (fun hne => hne rfl), raw_integrate_step]

/-- Concrete pdf with an implemented analytic integral. -/
def pdfA : BasePDF :=
  ⟨fun x => .ok (x + 1), none, fun _ => .ok 7, [], fun _ _ _ => 0, fun _ _ => 0,
   fun _ _ => .ok 1, fun _ _ => .ok 1⟩

/-- Concrete pdf with no analytic integral but a registered partial one. -/
def pdfB : BasePDF :=
  ⟨fun x => .ok (x + 1), none, fun _ => .error .notImplemented, [0], fun x _ _ => x * 3,
   fun f _ => f 1 + 1, fun _ _ => .ok 1, fun _ _ => .ok 1⟩

/-- Concrete pdf with neither analytic nor partial analytic integral. -/
def pdfC : BasePDF :=
  ⟨fun x => .ok (x + 1), none, fun _ => .error .notImplemented, [], fun _ _ _ => 0,
   fun _ _ => 0, fun _ _ => .ok 9, fun _ _ => .ok 1⟩

/-- C9 (witness): the three dispatch outcomes at concrete pdfs. -/
theorem c9_witness :
    BasePDF.integrate pdfA 2 none = .ok 7 ∧
    BasePDF.integrate pdfB 2 none
      = .ok (pdfB.numeric_integrate
          (fun x => pdfB.partAnalyticIntegral x none pdfB.max_dims) none) ∧
    BasePDF.integrate pdfC 3 none = pdfC.auto_integrate (BasePDF.func pdfC 0) none :=
  ⟨c9_integrate_dispatch.1 pdfA none 0 7 rfl,
   c9_integrate_dispatch.2.1 pdfB none 0 rfl (by decide),
   c9_integrate_dispatch.2.2 pdfC none 0 rfl rfl⟩

/-- For a pdf whose `_func` is not implemented, every method in the
`func` / `prob` cycle exhausts any recursion depth: the fallback in
`_call_func` re-enters `prob`, which re-enters `func` through `_prob`. -/
theorem noimpl_all (p : BasePDF) (h : ∀ x, p._func x = .error .notImplemented) :
    ∀ fuel, (∀ v, (methodsAt p fuel).func v = .error .recursionError) ∧
      (∀ v, (methodsAt p fuel)._call_func v = .error .recursionError) ∧
      (∀ v nr, (methodsAt p fuel).prob v nr = .error .recursionError) ∧
      (∀ v nr, (methodsAt p fuel)._call_prob v nr = .error .recursionError) ∧
      (∀ v nr, (methodsAt p fuel)._prob v nr = .error .recursionError) := by
  intro fuel
  induction fuel with
  | zero => exact ⟨fun _ => rfl, fun _ => rfl, fun _ _ => rfl, fun _ _ => rfl, fun _ _ => rfl⟩
  | succ n ih =>
    obtain ⟨ihf, ihcf, ihp, ihcp, ihpr⟩ := ih
    refine ⟨?_, ?_, ?_, ?_, ?_⟩
    · intro v
      simp only [methodsAt, methodsStep]
      exact ihcf v
    · intro v
      simp only [methodsAt, methodsStep, h, ihp]
    · intro v nr
      simp only [methodsAt, methodsStep]
      exact ihcp v _
    · intro v nr
      simp only [methodsAt, methodsStep, ihpr]
    · intro v nr
      simp only [methodsAt, methodsStep, ihf]

/-- Concrete `BasePDF` subclass state whose `_func` is not implemented. -/
def pdfNoFunc : BasePDF :=
  ⟨fun _ => .error .notImplemented, none, fun _ => .error .notImplemented, [],
   fun _ _ _ => 0, fun _ _ => 0, fun _ _ => .ok 1, fun _ _ => .ok 1⟩

/-- C10 (counterexample): for a subclass whose `_func` is not implemented,
`func` at a concrete input fails with the recursion error — the fallback
branch re-enters `prob` before the undefined `NAME_NEEDED_YIELD` attribute
is ever read — not with the attribute error the claim asserts. -/
theorem c10_counterexample :
    BasePDF.func pdfNoFunc 50 0 = .error .recursionError ∧
    (Except.error PyErr.recursionError : Except PyErr ℚ) ≠ .error .attributeError := by
  constructor
  · rfl
  · intro hcontra
    injection hcontra with h2
    exact PyErr.noConfusion h2

/-- C10 (amended): for every `BasePDF` subclass whose `_func` is not
implemented, the public `func(value)` never returns a value; but the failure
is unbounded recursion (`_call_func`'s fallback evaluates `self.prob(value)`
first, which re-enters `func` via `_prob`, so Python's recursion limit is
hit), not the attribute error on the undefined `NAME_NEEDED_YIELD`, which is
never reached. -/
theorem c10_func_never_returns (p : BasePDF)
    (h : ∀ x, p._func x = .error .notImplemented) (fuel : Nat) (v : ℚ) :
    BasePDF.func p fuel v = .error .recursionError ∧
    BasePDF.func p fuel v ≠ .error .attributeError ∧
    (∀ r, BasePDF.func p fuel v ≠ .ok r) := by
  have hf : BasePDF.func p fuel v = .error .recursionError := (noimpl_all p h fuel).1 v
  refine ⟨hf, ?_, ?_⟩
  · intro hcontra
    rw [hf] at hcontra
    injection hcontra with h2
    exact PyErr.noConfusion h2
  · intro r hcontra
    rw [hf] at hcontra
    cases hcontra

/-- C10 (witness): the concrete pdf with unimplemented `_func` at a concrete
fuel and value. -/
theorem c10_witness :
    BasePDF.func pdfNoFunc 25 0 = .error .recursionError ∧
    BasePDF.func pdfNoFunc 25 0 ≠ .error .attributeError :=
  ⟨(c10_func_never_returns pdfNoFunc (fun _ => rfl) 25 0).1,
   (c10_func_never_returns pdfNoFunc (fun _ => rfl) 25 0).2.1⟩

end Zfit
